import Mathlib

/-!
# Verification of the go-proxyproto v2 codec, TLV codec and interception wrapper

A shallow embedding of the PROXY-protocol library (package `proxyproto`).
Bytes are modelled as `Nat` (with explicit `% 256` / `% 65536` where the Go
code converts), byte streams as `List Nat`, and fallible operations as
`Except`.  The definitions follow the Go source (`v2.go`, the TLV file);
helpers that live in files absent from the snapshot (`header.go`,
`addr_proto.go`, `version_cmd.go`, `policy.go`) are modelled from the
specification and marked as such.
-/

instance {ε α : Type _} [DecidableEq ε] [DecidableEq α] : DecidableEq (Except ε α) :=
  fun x y =>
    match x, y with
    | .ok a, .ok b =>
        if h : a = b then isTrue (by rw [h]) else isFalse (by simp [h])
    | .error a, .error b =>
        if h : a = b then isTrue (by rw [h]) else isFalse (by simp [h])
    | .ok _, .error _ => isFalse (by simp)
    | .error _, .ok _ => isFalse (by simp)

namespace Proxyproto

/-- Big-endian bytes of a 16-bit value: models `binary.BigEndian.PutUint16`
applied to `uint16(n)` (the Go conversion truncates, hence the `% 256`s). -/
def u16be (n : Nat) : List Nat := [n / 256 % 256, n % 256]

/-- Models `binary.BigEndian.Uint16` on the front of a byte stream. -/
def readU16 : List Nat → Nat
  | hi :: lo :: _ => hi * 256 + lo
  | [hi] => hi * 256
  | [] => 0

theorem u16be_length (n : Nat) : (u16be n).length = 2 := rfl

theorem readU16_u16be_append (n : Nat) (hn : n < 65536) (X : List Nat) :
    readU16 (u16be n ++ X) = n := by
  simp only [u16be, readU16, List.cons_append]
  omega

/-- Modelled from the spec: `AddressFamilyAndProtocol` constant `UNSPEC`
(family UNSPEC, protocol UNSPEC; packed byte `0x00`). -/
def UNSPEC : Nat := 0x00

/-- Modelled from the spec: the v2 command byte for LOCAL,
`(version << 4) | command` with version 2, command 0. -/
def LOCAL : Nat := 0x20

/-- Modelled from the spec: the v2 command byte for PROXY,
`(version << 4) | command` with version 2, command 1. -/
def PROXY : Nat := 0x21

/-- Modelled from the spec: `supportedCommand` (version_cmd.go, absent from
the snapshot) — the only supported version/command bytes are LOCAL (`0x20`)
and PROXY (`0x21`). -/
def supportedCommand (b : Nat) : Bool := b = LOCAL || b = PROXY

/-- Modelled from the spec: `ProtocolVersionAndCommand.IsLocal`. -/
def isLocalCmd (b : Nat) : Bool := b = LOCAL

/-- Modelled from the spec: `ProtocolVersionAndCommand.toByte` — LOCAL and
PROXY map to their bytes, anything else falls back to LOCAL. -/
def toByteCmd (b : Nat) : Nat :=
  if b = LOCAL then LOCAL else if b = PROXY then PROXY else LOCAL

/-- Modelled from the spec: `AddressFamilyAndProtocol.IsIPv4` — the address
family is the upper nibble of the transport byte, `INET = 1`. -/
def isIPv4 (b : Nat) : Bool := b / 16 = 1

/-- Modelled from the spec: `AddressFamilyAndProtocol.IsIPv6` (`INET6 = 2`). -/
def isIPv6 (b : Nat) : Bool := b / 16 = 2

/-- Modelled from the spec: `AddressFamilyAndProtocol.IsUnix` (`UNIX = 3`). -/
def isUnix (b : Nat) : Bool := b / 16 = 3

/-- Modelled from the spec: `AddressFamilyAndProtocol.IsUnspec`
(`UNSPEC = 0` family). -/
def isUnspec (b : Nat) : Bool := b / 16 = 0

/-- Modelled from the spec: `AddressFamilyAndProtocol.IsStream` — the
protocol is the lower nibble, `STREAM = 1`. -/
def isStream (b : Nat) : Bool := b % 16 = 1

/-- Modelled from the spec: `AddressFamilyAndProtocol.IsDatagram`
(`DGRAM = 2`). -/
def isDatagram (b : Nat) : Bool := b % 16 = 2

/-- The 12-byte v2 signature `SIGV2` (its bytes are given in the spec §6). -/
def SIGV2 : List Nat :=
  [0x0D, 0x0A, 0x0D, 0x0A, 0x00, 0x0D, 0x0A, 0x51, 0x55, 0x49, 0x54, 0x0A]

/-- A parsed network address: models the `net.Addr` values the codec
produces (`net.TCPAddr`, `net.UDPAddr`, `net.UnixAddr`).  IPs and Unix
paths are byte lists; the Unix `network` is the `Net` field
(`"unix"` / `"unixgram"`). -/
inductive Addr where
  | tcp (ip : List Nat) (port : Nat)
  | udp (ip : List Nat) (port : Nat)
  | unixA (network : String) (name : List Nat)
deriving Repr, DecidableEq

/-- The `Header` record (its field list is given by the spec §3 data model
and used throughout `v2.go`): version, version/command byte, transport
byte, optional source/destination address, raw TLV bytes. -/
structure Header where
  version : Nat
  command : Nat
  transportProtocol : Nat
  sourceAddr : Option Addr := none
  destinationAddr : Option Addr := none
  rawTLVs : List Nat := []
deriving Repr, DecidableEq

/-- Modelled from the spec: `Header.IPs` (header.go, absent from the
snapshot) — both endpoint IPs when source and destination are both TCP or
both UDP addresses, otherwise nothing (Go: `nil, nil, false`). -/
def Header.IPs (h : Header) : Option (List Nat × List Nat) :=
  match h.sourceAddr, h.destinationAddr with
  | some (.tcp s _), some (.tcp d _) => some (s, d)
  | some (.udp s _), some (.udp d _) => some (s, d)
  | _, _ => none

/-- Modelled from the spec: `Header.Ports` (header.go, absent from the
snapshot) — both ports when source and destination are both TCP or both
UDP addresses. -/
def Header.Ports (h : Header) : Option (Nat × Nat) :=
  match h.sourceAddr, h.destinationAddr with
  | some (.tcp _ sp), some (.tcp _ dp) => some (sp, dp)
  | some (.udp _ sp), some (.udp _ dp) => some (sp, dp)
  | _, _ => none

/-- Modelled from the spec: `Header.UnixAddrs` (header.go, absent from the
snapshot) — the two `net.UnixAddr` values when both endpoints are Unix
addresses. -/
def Header.UnixAddrs (h : Header) : Option ((String × List Nat) × (String × List Nat)) :=
  match h.sourceAddr, h.destinationAddr with
  | some (.unixA n1 s), some (.unixA n2 d) => some ((n1, s), (n2, d))
  | _, _ => none

/-- Models `net.IP.To4` from the Go standard library: a 4-byte IP is
returned as is, a 16-byte IPv4-mapped IPv6 address is shortened, anything
else (including Go `nil`) yields `none`. -/
def ipTo4 (ip : List Nat) : Option (List Nat) :=
  if ip.length = 4 then some ip
  else if ip.length = 16 ∧ ip.take 12 = [0, 0, 0, 0, 0, 0, 0, 0, 0, 0, 0xFF, 0xFF] then
    some (ip.drop 12)
  else none

/-- Models `net.IP.To16` from the Go standard library. -/
def ipTo16 (ip : List Nat) : Option (List Nat) :=
  if ip.length = 16 then some ip
  else if ip.length = 4 then some ([0, 0, 0, 0, 0, 0, 0, 0, 0, 0, 0xFF, 0xFF] ++ ip)
  else none

/-! ## TLV codec (tlv.go from the snapshot) -/

/-- `PP2_TYPE_NOOP` — the padding TLV type, dropped by `SplitTLVs`. -/
def PP2_TYPE_NOOP : Nat := 0x04

/-- TLV errors. `truncatedTLV`, `malformedTLV` and `incompatibleTLV` are the
distinguished error values `ErrTruncatedTLV`, `ErrMalformedTLV`,
`ErrIncompatibleTLV`; `cannotFormatTLV` models the fresh error built by
`fmt.Errorf("proxyproto: cannot format TLV %v with length %d", ...)` in
`JoinTLVs`, carrying the format arguments. -/
inductive TLVError where
  | truncatedTLV
  | malformedTLV
  | incompatibleTLV
  | cannotFormatTLV (t : Nat) (length : Nat)
deriving Repr, DecidableEq

/-- A single Type-Length-Value entry (`TLV`).  The Go fields are `Type`
(a byte, `PP2Type`) and `Value`; `Type` is a Lean keyword, so the fields
are named `typ` and `value` here. -/
structure TLV where
  typ : Nat
  value : List Nat
deriving Repr, DecidableEq

/-- The loop body of `SplitTLVs`: at each position read the type byte, a
big-endian 16-bit length, and that many value bytes; drop NOOP entries;
fail with `ErrTruncatedTLV` when fewer than 3 header bytes or fewer than
`length` value bytes remain. -/
def splitLoop : List Nat → Except TLVError (List TLV)
  | [] => .ok []
  | t :: hi :: lo :: rest =>
    let tlvLen := hi * 256 + lo
    if tlvLen ≤ rest.length then
      match splitLoop (rest.drop tlvLen) with
      | .error e => .error e
      | .ok tlvs =>
          .ok (if t = PP2_TYPE_NOOP then tlvs else ⟨t, rest.take tlvLen⟩ :: tlvs)
    else .error .truncatedTLV
  | _ => .error .truncatedTLV
termination_by l => l.length
decreasing_by simp [List.length_drop]; omega

/-- `SplitTLVs raw` — empty input yields the empty list, otherwise the
scan loop runs over the bytes. -/
def SplitTLVs (raw : List Nat) : Except TLVError (List TLV) :=
  if raw.length = 0 then .ok [] else splitLoop raw

/-- The wire bytes of one TLV as written by the fill loop of `JoinTLVs`:
type byte (`byte(tlv.Type)`), big-endian 16-bit length, value bytes. -/
def encodeTLV (tlv : TLV) : List Nat :=
  tlv.typ % 256 :: (u16be tlv.value.length ++ tlv.value)

/-- The size-computation loop of `JoinTLVs`: fails on the first entry whose
value exceeds 65535 bytes (with the fresh `fmt.Errorf` error, not
`ErrMalformedTLV`), otherwise sums `3 + len(value)` over the entries. -/
def joinSize : List TLV → Except TLVError Nat
  | [] => .ok 0
  | tlv :: rest =>
    if tlv.value.length > 65535 then
      .error (.cannotFormatTLV tlv.typ tlv.value.length)
    else
      match joinSize rest with
      | .error e => .error e
      | .ok n => .ok (3 + tlv.value.length + n)

/-- `JoinTLVs` — empty list yields nil; otherwise the pre-size loop runs
(erroring on oversized values), a zero total also yields nil, and the fill
loop concatenates the per-entry encodings. -/
def JoinTLVs (tlvs : List TLV) : Except TLVError (List Nat) :=
  if tlvs.length = 0 then .ok []
  else
    match joinSize tlvs with
    | .error e => .error e
    | .ok totalSize =>
        if totalSize = 0 then .ok [] else .ok (tlvs.map encodeTLV).flatten

/-! ## v2 binary codec (v2.go from the snapshot) -/

/-- The error values of the v2 codec (`ErrCantRead...`, `ErrInvalidLength`,
`errUint16Overflow`, ...) together with `noProxyProtocol`
(`ErrNoProxyProtocol`, raised by the demultiplexing `Read` entry). -/
inductive V2Error where
  | cantReadProtocolVersionAndCommand
  | unsupportedProtocolVersionAndCommand
  | cantReadAddressFamilyAndProtocol
  | unsupportedAddressFamilyAndProtocol
  | cantReadLength
  | invalidLength
  | invalidAddress
  | uint16Overflow
  | noProxyProtocol
deriving Repr, DecidableEq

/-- `Header.validateLength` — the declared payload length must reach the
family minimum (12/36/216, anything for the UNSPEC family, reject unknown
families). -/
def validateLength (tp length : Nat) : Bool :=
  if isIPv4 tp then length ≥ 12
  else if isIPv6 tp then length ≥ 36
  else if isUnix tp then length ≥ 216
  else if isUnspec tp then length ≥ 0
  else false

/-- `parseUnixName` — the bytes before the first NUL (the whole field when
no NUL occurs). -/
def parseUnixName (b : List Nat) : List Nat := b.takeWhile (fun x => x != 0)

/-- `formatUnixNameZeroCopy` — copy up to 108 bytes of the path into a
108-byte field and zero-fill the remainder. -/
def formatUnixNameZeroCopy (name : List Nat) : List Nat :=
  name.take 108 ++ List.replicate (108 - (name.take 108).length) 0

/-- `newIPAddr` — a TCP address for stream transports, a UDP address for
datagram transports, Go `nil` otherwise. -/
def newIPAddr (transport : Nat) (ip : List Nat) (port : Nat) : Option Addr :=
  if isStream transport then some (.tcp ip port)
  else if isDatagram transport then some (.udp ip port)
  else none

/-- The network name used for parsed Unix addresses in `parseVersion2`
(`"unixgram"` for datagram transports, `"unix"` otherwise). -/
def unixNetwork (tp : Nat) : String := if isDatagram tp then "unixgram" else "unix"

/-- The payload section of `parseVersion2` (everything after the length
check and `Peek`): for non-UNSPEC transports read the fixed address block
(`binary.Read` of `_addr4` / `_addr6` / `_addrUnix`, which fails with
`ErrInvalidAddress` on short input), the remaining payload bytes become
`rawTLVs` verbatim.  `payload` is the length-limited payload slice. -/
def parseV2Payload (cmd tp : Nat) (payload : List Nat) : Except V2Error Header :=
  if tp = UNSPEC then
    .ok { version := 2, command := cmd, transportProtocol := tp, rawTLVs := payload }
  else if isIPv4 tp then
    if payload.length < 12 then .error .invalidAddress
    else
      .ok { version := 2, command := cmd, transportProtocol := tp,
            sourceAddr := newIPAddr tp (payload.take 4) (readU16 (payload.drop 8)),
            destinationAddr := newIPAddr tp ((payload.drop 4).take 4) (readU16 (payload.drop 10)),
            rawTLVs := payload.drop 12 }
  else if isIPv6 tp then
    if payload.length < 36 then .error .invalidAddress
    else
      .ok { version := 2, command := cmd, transportProtocol := tp,
            sourceAddr := newIPAddr tp (payload.take 16) (readU16 (payload.drop 32)),
            destinationAddr := newIPAddr tp ((payload.drop 16).take 16) (readU16 (payload.drop 34)),
            rawTLVs := payload.drop 36 }
  else if isUnix tp then
    if payload.length < 216 then .error .invalidAddress
    else
      .ok { version := 2, command := cmd, transportProtocol := tp,
            sourceAddr := some (.unixA (unixNetwork tp) (parseUnixName (payload.take 108))),
            destinationAddr := some (.unixA (unixNetwork tp) (parseUnixName ((payload.drop 108).take 108))),
            rawTLVs := payload.drop 216 }
  else
    -- family other than INET/INET6/UNIX with a nonzero lower nibble:
    -- the Go if-chain reads no addresses and captures the payload as TLVs
    .ok { version := 2, command := cmd, transportProtocol := tp, rawTLVs := payload }

/-- The length handling of `parseVersion2`: validate against the family
minimum (`ErrInvalidLength`), return an address-less header when the
length is zero, confirm the source holds the declared bytes
(`reader.Peek`, `ErrInvalidLength` on failure), then parse the
length-limited payload. -/
def parseWithLength (cmd tp length : Nat) (rest : List Nat) : Except V2Error Header :=
  if validateLength tp length then
    if length = 0 then .ok { version := 2, command := cmd, transportProtocol := tp }
    else if length ≤ rest.length then parseV2Payload cmd tp (rest.take length)
    else .error .invalidLength
  else .error .invalidLength

/-- `parseVersion2` after the 13th byte: check `supportedCommand`, read the
transport byte (UNSPEC only with LOCAL), read the big-endian length, and
continue in `parseWithLength`. -/
def parseAfterSig (b13 : Nat) (rest : List Nat) : Except V2Error Header :=
  if supportedCommand b13 then
    match rest with
    | b14 :: rest2 =>
      if b14 = UNSPEC ∧ ¬b13 = LOCAL then .error .unsupportedAddressFamilyAndProtocol
      else
        match rest2 with
        | hi :: lo :: rest3 => parseWithLength b13 b14 (hi * 256 + lo) rest3
        | _ => .error .cantReadLength
    | [] => .error .cantReadAddressFamilyAndProtocol
  else .error .unsupportedProtocolVersionAndCommand

/-- `parseVersion2` — skip the 12 signature bytes (any byte missing, or a
missing 13th byte, fails with `ErrCantReadProtocolVersionAndCommand`),
then continue with the version/command byte. -/
def parseVersion2 : List Nat → Except V2Error Header
  | _ :: _ :: _ :: _ :: _ :: _ :: _ :: _ :: _ :: _ :: _ :: _ :: b13 :: rest =>
      parseAfterSig b13 rest
  | _ => .error .cantReadProtocolVersionAndCommand

/-- The port bytes appended by `formatVersion2` when `header.Ports()`
reports both ports (`binary.BigEndian.PutUint16(uint16(port))` each). -/
def portBytes (h : Header) : List Nat :=
  match h.Ports with
  | some (sp, dp) => u16be sp ++ u16be dp
  | none => []

/-- `Header.formatVersion2` — per transport family: compute the declared
length (fixed size plus TLV length, failing with `errUint16Overflow` when
it exceeds 65535 — in the UNSPEC branch the Go guard compares the already
truncated `uint16` against `math.MaxUint16` and can never fire, which the
`% 65536` reproduces), validate the addresses (`ErrInvalidAddress`), and
emit signature ++ command byte ++ transport byte ++ length ++ addresses ++
ports ++ raw TLVs. -/
def Header.formatVersion2 (h : Header) : Except V2Error (List Nat) :=
  let pre := SIGV2 ++ [toByteCmd h.command, h.transportProtocol]
  if isIPv4 h.transportProtocol then
    let addrSrc := h.IPs.bind fun p => ipTo4 p.1
    let addrDst := h.IPs.bind fun p => ipTo4 p.2
    if h.rawTLVs.length ≠ 0 ∧ 12 + h.rawTLVs.length > 65535 then .error .uint16Overflow
    else
      match addrSrc, addrDst with
      | some s, some d =>
          .ok (pre ++ u16be (12 + h.rawTLVs.length) ++ s ++ d ++ portBytes h ++ h.rawTLVs)
      | _, _ => .error .invalidAddress
  else if isIPv6 h.transportProtocol then
    let addrSrc := h.IPs.bind fun p => ipTo16 p.1
    let addrDst := h.IPs.bind fun p => ipTo16 p.2
    if h.rawTLVs.length ≠ 0 ∧ 36 + h.rawTLVs.length > 65535 then .error .uint16Overflow
    else
      match addrSrc, addrDst with
      | some s, some d =>
          .ok (pre ++ u16be (36 + h.rawTLVs.length) ++ s ++ d ++ portBytes h ++ h.rawTLVs)
      | _, _ => .error .invalidAddress
  else if isUnix h.transportProtocol then
    match h.UnixAddrs with
    | none => .error .invalidAddress
    | some (srcA, dstA) =>
        if h.rawTLVs.length ≠ 0 ∧ 216 + h.rawTLVs.length > 65535 then .error .uint16Overflow
        else
          .ok (pre ++ u16be (216 + h.rawTLVs.length) ++ formatUnixNameZeroCopy srcA.2
               ++ formatUnixNameZeroCopy dstA.2 ++ portBytes h ++ h.rawTLVs)
  else
    -- UNSPEC: `length := uint16(len(rawTLVs))` truncates before the guard
    let length := if h.rawTLVs.length ≠ 0 then h.rawTLVs.length % 65536 else 0
    if length > 65535 then .error .uint16Overflow
    else .ok (pre ++ u16be length ++ h.rawTLVs)

/-! ## Helper lemmas for the v2 round trip -/

theorem drop_blk {a : List Nat} {m : Nat} (ha : a.length = m) (X : List Nat) (n : Nat) :
    (a ++ X).drop (m + n) = X.drop n := by
  subst ha; exact List.drop_append n

theorem take_full {X : List Nat} {n : Nat} (h : X.length = n) : X.take n = X := by
  subst h; exact List.take_length X

theorem parseVersion2_sig (b13 : Nat) (rest : List Nat) :
    parseVersion2 (SIGV2 ++ b13 :: rest) = parseAfterSig b13 rest := rfl

theorem parseAfterSig_u16be (b13 b14 L : Nat) (X : List Nat)
    (hL : L < 65536) (hcmd : supportedCommand b13 = true)
    (hns : ¬(b14 = UNSPEC ∧ ¬b13 = LOCAL)) :
    parseAfterSig b13 (b14 :: (u16be L ++ X)) = parseWithLength b13 b14 L X := by
  have harith : L / 256 % 256 * 256 + L % 256 = L := by omega
  simp only [parseAfterSig, hcmd, if_true, u16be, List.cons_append, List.nil_append]
  rw [if_neg hns, harith]

theorem supportedCommand_of (cmd : Nat) (hcmd : cmd = LOCAL ∨ cmd = PROXY) :
    supportedCommand cmd = true := by
  rcases hcmd with rfl | rfl <;> decide

theorem toByteCmd_of (cmd : Nat) (hcmd : cmd = LOCAL ∨ cmd = PROXY) :
    toByteCmd cmd = cmd := by
  rcases hcmd with rfl | rfl <;> decide

/-- Round trip, IPv4 transports (`0x11` TCPv4, `0x12` UDPv4). -/
theorem roundtripIP4 (cmd tp sp dp : Nat) (s d tlvs : List Nat)
    (hcmd : cmd = LOCAL ∨ cmd = PROXY) (htp : tp = 0x11 ∨ tp = 0x12)
    (hs : s.length = 4) (hd : d.length = 4)
    (hsp : sp < 65536) (hdp : dp < 65536)
    (htl : 12 + tlvs.length ≤ 65535) :
    ∃ bs,
      Header.formatVersion2
        { version := 2, command := cmd, transportProtocol := tp,
          sourceAddr := newIPAddr tp s sp, destinationAddr := newIPAddr tp d dp,
          rawTLVs := tlvs } = .ok bs ∧
      parseVersion2 bs = .ok
        { version := 2, command := cmd, transportProtocol := tp,
          sourceAddr := newIPAddr tp s sp, destinationAddr := newIPAddr tp d dp,
          rawTLVs := tlvs } := by
  have hng : ¬(tlvs.length ≠ 0 ∧ 12 + tlvs.length > 65535) := by omega
  set R3 : List Nat := u16be dp ++ tlvs with hR3
  set R2 : List Nat := u16be sp ++ R3 with hR2
  set R1 : List Nat := d ++ R2 with hR1
  set X : List Nat := s ++ R1 with hX
  have hXlen : X.length = 12 + tlvs.length := by
    simp [hX, hR1, hR2, hR3, u16be, hs, hd]; omega
  refine ⟨SIGV2 ++ toByteCmd cmd :: tp :: (u16be (12 + tlvs.length) ++ X), ?_, ?_⟩
  · rcases htp with rfl | rfl <;>
    · simp only [Header.formatVersion2, Header.IPs, Header.Ports, portBytes, newIPAddr,
        isIPv4, isIPv6, isUnix, isStream, isDatagram, ipTo4]
      norm_num [hs, hd, hng, hX, hR1, hR2, hR3]
      intro _ h2
      omega
  · rw [toByteCmd_of cmd hcmd, parseVersion2_sig,
      parseAfterSig_u16be cmd tp (12 + tlvs.length) X (by omega)
        (supportedCommand_of cmd hcmd)
        (by rcases htp with rfl | rfl <;> simp [UNSPEC]),
      parseWithLength]
    have hv : validateLength tp (12 + tlvs.length) = true := by
      rcases htp with rfl | rfl <;> simp [validateLength, isIPv4]
    rw [if_pos hv, if_neg (by omega : ¬(12 + tlvs.length = 0)),
      if_pos (by omega : 12 + tlvs.length ≤ X.length), take_full hXlen]
    have t4 : X.take 4 = s := by rw [hX]; exact List.take_left' hs
    have d4 : X.drop 4 = R1 := by rw [hX]; exact List.drop_left' hs
    have t44 : (X.drop 4).take 4 = d := by rw [d4, hR1]; exact List.take_left' hd
    have d8 : X.drop 8 = R2 := by
      rw [show (8 : Nat) = 4 + 4 from rfl, hX, drop_blk hs, hR1, List.drop_left' hd]
    have d10 : X.drop 10 = R3 := by
      rw [show (10 : Nat) = 4 + 6 from rfl, hX, drop_blk hs, hR1,
        show (6 : Nat) = 4 + 2 from rfl, drop_blk hd, hR2, List.drop_left' (u16be_length sp)]
    have d12 : X.drop 12 = tlvs := by
      rw [show (12 : Nat) = 4 + 8 from rfl, hX, drop_blk hs, hR1,
        show (8 : Nat) = 4 + 4 from rfl, drop_blk hd, hR2,
        show (4 : Nat) = 2 + 2 from rfl, drop_blk (u16be_length sp), hR3,
        List.drop_left' (u16be_length dp)]
    have hsp' : readU16 (X.drop 8) = sp := by
      rw [d8, hR2]; exact readU16_u16be_append sp hsp R3
    have hdp' : readU16 (X.drop 10) = dp := by
      rw [d10, hR3]; exact readU16_u16be_append dp hdp tlvs
    rcases htp with rfl | rfl <;>
    · simp only [parseV2Payload, UNSPEC, isIPv4, isIPv6, isUnix]
      norm_num
      rw [if_neg (by omega : ¬X.length < 12), t4, t44, hsp', hdp', d12]

/-- Round trip, IPv6 transports (`0x21` TCPv6, `0x22` UDPv6). -/
theorem roundtripIP6 (cmd tp sp dp : Nat) (s d tlvs : List Nat)
    (hcmd : cmd = LOCAL ∨ cmd = PROXY) (htp : tp = 0x21 ∨ tp = 0x22)
    (hs : s.length = 16) (hd : d.length = 16)
    (hsp : sp < 65536) (hdp : dp < 65536)
    (htl : 36 + tlvs.length ≤ 65535) :
    ∃ bs,
      Header.formatVersion2
        { version := 2, command := cmd, transportProtocol := tp,
          sourceAddr := newIPAddr tp s sp, destinationAddr := newIPAddr tp d dp,
          rawTLVs := tlvs } = .ok bs ∧
      parseVersion2 bs = .ok
        { version := 2, command := cmd, transportProtocol := tp,
          sourceAddr := newIPAddr tp s sp, destinationAddr := newIPAddr tp d dp,
          rawTLVs := tlvs } := by
  have hng : ¬(tlvs.length ≠ 0 ∧ 36 + tlvs.length > 65535) := by omega
  set R3 : List Nat := u16be dp ++ tlvs with hR3
  set R2 : List Nat := u16be sp ++ R3 with hR2
  set R1 : List Nat := d ++ R2 with hR1
  set X : List Nat := s ++ R1 with hX
  have hXlen : X.length = 36 + tlvs.length := by
    simp [hX, hR1, hR2, hR3, u16be, hs, hd]; omega
  refine ⟨SIGV2 ++ toByteCmd cmd :: tp :: (u16be (36 + tlvs.length) ++ X), ?_, ?_⟩
  · rcases htp with rfl | rfl <;>
    · simp only [Header.formatVersion2, Header.IPs, Header.Ports, portBytes, newIPAddr,
        isIPv4, isIPv6, isUnix, isStream, isDatagram, ipTo16]
      norm_num [hs, hd, hng, hX, hR1, hR2, hR3]
      intro _ h2
      omega
  · rw [toByteCmd_of cmd hcmd, parseVersion2_sig,
      parseAfterSig_u16be cmd tp (36 + tlvs.length) X (by omega)
        (supportedCommand_of cmd hcmd)
        (by rcases htp with rfl | rfl <;> simp [UNSPEC]),
      parseWithLength]
    have hv : validateLength tp (36 + tlvs.length) = true := by
      rcases htp with rfl | rfl <;> simp [validateLength, isIPv4, isIPv6]
    rw [if_pos hv, if_neg (by omega : ¬(36 + tlvs.length = 0)),
      if_pos (by omega : 36 + tlvs.length ≤ X.length), take_full hXlen]
    have t16 : X.take 16 = s := by rw [hX]; exact List.take_left' hs
    have d16 : X.drop 16 = R1 := by rw [hX]; exact List.drop_left' hs
    have t1616 : (X.drop 16).take 16 = d := by rw [d16, hR1]; exact List.take_left' hd
    have d32 : X.drop 32 = R2 := by
      rw [show (32 : Nat) = 16 + 16 from rfl, hX, drop_blk hs, hR1, List.drop_left' hd]
    have d34 : X.drop 34 = R3 := by
      rw [show (34 : Nat) = 16 + 18 from rfl, hX, drop_blk hs, hR1,
        show (18 : Nat) = 16 + 2 from rfl, drop_blk hd, hR2, List.drop_left' (u16be_length sp)]
    have d36 : X.drop 36 = tlvs := by
      rw [show (36 : Nat) = 16 + 20 from rfl, hX, drop_blk hs, hR1,
        show (20 : Nat) = 16 + 4 from rfl, drop_blk hd, hR2,
        show (4 : Nat) = 2 + 2 from rfl, drop_blk (u16be_length sp), hR3,
        List.drop_left' (u16be_length dp)]
    have hsp' : readU16 (X.drop 32) = sp := by
      rw [d32, hR2]; exact readU16_u16be_append sp hsp R3
    have hdp' : readU16 (X.drop 34) = dp := by
      rw [d34, hR3]; exact readU16_u16be_append dp hdp tlvs
    rcases htp with rfl | rfl <;>
    · simp only [parseV2Payload, UNSPEC, isIPv4, isIPv6, isUnix]
      norm_num
      rw [if_neg (by omega : ¬X.length < 36), t16, t1616, hsp', hdp', d36]

theorem takeWhile_append_replicate (s : List Nat) (hnz : ∀ x ∈ s, x ≠ 0) (k : Nat) :
    (s ++ List.replicate k 0).takeWhile (fun x => x != 0) = s := by
  induction s with
  | nil =>
      cases k with
      | zero => rfl
      | succ n => simp [List.replicate_succ]
  | cons a t ih =>
      have ha : a ≠ 0 := hnz a (by simp)
      have ht : ∀ x ∈ t, x ≠ 0 := fun x hx => hnz x (by simp [hx])
      simp [List.takeWhile_cons, ha, ih ht]

theorem parseUnixName_format (s : List Nat) (hlen : s.length ≤ 108)
    (hnz : ∀ x ∈ s, x ≠ 0) :
    parseUnixName (formatUnixNameZeroCopy s) = s := by
  unfold parseUnixName formatUnixNameZeroCopy
  rw [List.take_of_length_le hlen]
  exact takeWhile_append_replicate s hnz _

theorem formatUnixNameZeroCopy_length (s : List Nat) (hlen : s.length ≤ 108) :
    (formatUnixNameZeroCopy s).length = 108 := by
  simp [formatUnixNameZeroCopy, List.take_of_length_le hlen]
  omega

/-- Round trip, Unix transports (`0x31` stream, `0x32` datagram). -/
theorem roundtripUnix (cmd tp : Nat) (s d tlvs : List Nat)
    (hcmd : cmd = LOCAL ∨ cmd = PROXY) (htp : tp = 0x31 ∨ tp = 0x32)
    (hs : s.length ≤ 108) (hd : d.length ≤ 108)
    (hsz : ∀ x ∈ s, x ≠ 0) (hdz : ∀ x ∈ d, x ≠ 0)
    (htl : 216 + tlvs.length ≤ 65535) :
    ∃ bs,
      Header.formatVersion2
        { version := 2, command := cmd, transportProtocol := tp,
          sourceAddr := some (.unixA (unixNetwork tp) s),
          destinationAddr := some (.unixA (unixNetwork tp) d),
          rawTLVs := tlvs } = .ok bs ∧
      parseVersion2 bs = .ok
        { version := 2, command := cmd, transportProtocol := tp,
          sourceAddr := some (.unixA (unixNetwork tp) s),
          destinationAddr := some (.unixA (unixNetwork tp) d),
          rawTLVs := tlvs } := by
  have hng : ¬(tlvs.length ≠ 0 ∧ 216 + tlvs.length > 65535) := by omega
  have hFs : (formatUnixNameZeroCopy s).length = 108 := formatUnixNameZeroCopy_length s hs
  have hFd : (formatUnixNameZeroCopy d).length = 108 := formatUnixNameZeroCopy_length d hd
  set R1 : List Nat := formatUnixNameZeroCopy d ++ tlvs with hR1
  set X : List Nat := formatUnixNameZeroCopy s ++ R1 with hX
  have hXlen : X.length = 216 + tlvs.length := by
    simp [hX, hR1, hFs, hFd]; omega
  refine ⟨SIGV2 ++ toByteCmd cmd :: tp :: (u16be (216 + tlvs.length) ++ X), ?_, ?_⟩
  · rcases htp with rfl | rfl <;>
    · simp only [Header.formatVersion2, Header.UnixAddrs, Header.Ports, portBytes,
        isIPv4, isIPv6, isUnix, isStream, isDatagram]
      norm_num [hng, hX, hR1]
      intro _ h2
      omega
  · rw [toByteCmd_of cmd hcmd, parseVersion2_sig,
      parseAfterSig_u16be cmd tp (216 + tlvs.length) X (by omega)
        (supportedCommand_of cmd hcmd)
        (by rcases htp with rfl | rfl <;> simp [UNSPEC]),
      parseWithLength]
    have hv : validateLength tp (216 + tlvs.length) = true := by
      rcases htp with rfl | rfl <;> simp [validateLength, isIPv4, isIPv6, isUnix]
    rw [if_pos hv, if_neg (by omega : ¬(216 + tlvs.length = 0)),
      if_pos (by omega : 216 + tlvs.length ≤ X.length), take_full hXlen]
    have t108 : X.take 108 = formatUnixNameZeroCopy s := by
      rw [hX]; exact List.take_left' hFs
    have d108 : X.drop 108 = R1 := by rw [hX]; exact List.drop_left' hFs
    have t108108 : (X.drop 108).take 108 = formatUnixNameZeroCopy d := by
      rw [d108, hR1]; exact List.take_left' hFd
    have d216 : X.drop 216 = tlvs := by
      rw [show (216 : Nat) = 108 + 108 from rfl, hX, drop_blk hFs, hR1,
        List.drop_left' hFd]
    rcases htp with rfl | rfl <;>
    · simp only [parseV2Payload, UNSPEC, isIPv4, isIPv6, isUnix]
      norm_num
      rw [if_neg (by omega : ¬X.length < 216), t108, t108108, d216,
        parseUnixName_format s hs hsz, parseUnixName_format d hd hdz]

/-- Round trip, UNSPEC transport with command LOCAL. -/
theorem roundtripUnspec (tlvs : List Nat) (htl : tlvs.length ≤ 65535) :
    ∃ bs,
      Header.formatVersion2
        { version := 2, command := LOCAL, transportProtocol := UNSPEC,
          rawTLVs := tlvs } = .ok bs ∧
      parseVersion2 bs = .ok
        { version := 2, command := LOCAL, transportProtocol := UNSPEC,
          rawTLVs := tlvs } := by
  have hlen : (if tlvs.length ≠ 0 then tlvs.length % 65536 else 0) = tlvs.length := by
    by_cases h : tlvs.length = 0
    · simp [h]
    · simp [h]; omega
  refine ⟨SIGV2 ++ LOCAL :: UNSPEC :: (u16be tlvs.length ++ tlvs), ?_, ?_⟩
  · simp only [Header.formatVersion2, isIPv4, isIPv6, isUnix, UNSPEC, LOCAL, toByteCmd]
    rw [hlen]
    norm_num
    omega
  · rw [parseVersion2_sig,
      parseAfterSig_u16be LOCAL UNSPEC tlvs.length tlvs (by omega)
        (by decide) (by simp), parseWithLength]
    have hv : validateLength UNSPEC tlvs.length = true := by
      simp [validateLength, isIPv4, isIPv6, isUnix, isUnspec, UNSPEC]
    rw [if_pos hv]
    by_cases h0 : tlvs.length = 0
    · have : tlvs = [] := List.length_eq_zero.mp h0
      subst this
      simp
    · rw [if_neg h0, if_pos (by omega : tlvs.length ≤ tlvs.length),
        take_full rfl, parseV2Payload]
      simp

/-- Well-formedness of a v2 header for the round-trip property: version 2,
command LOCAL or PROXY, a supported transport byte, addresses and ports
matching the transport (4-byte IPs for INET, 16-byte IPs for INET6,
NUL-free Unix paths of at most 108 bytes with the `Net` name matching the
transport), the fixed size plus the TLV length at most 65535, and — the
amendment forced by the parser's UNSPEC check — UNSPEC transport only
together with command LOCAL. -/
def WellFormedV2 (h : Header) : Prop :=
  h.version = 2 ∧ (h.command = LOCAL ∨ h.command = PROXY) ∧
  ((h.transportProtocol = 0x00 ∧ h.command = LOCAL ∧ h.sourceAddr = none ∧
      h.destinationAddr = none ∧ h.rawTLVs.length ≤ 65535) ∨
   (∃ s sp d dp,
      ((h.transportProtocol = 0x11 ∧ h.sourceAddr = some (.tcp s sp) ∧
          h.destinationAddr = some (.tcp d dp)) ∨
       (h.transportProtocol = 0x12 ∧ h.sourceAddr = some (.udp s sp) ∧
          h.destinationAddr = some (.udp d dp))) ∧
      s.length = 4 ∧ d.length = 4 ∧ sp < 65536 ∧ dp < 65536 ∧
      12 + h.rawTLVs.length ≤ 65535) ∨
   (∃ s sp d dp,
      ((h.transportProtocol = 0x21 ∧ h.sourceAddr = some (.tcp s sp) ∧
          h.destinationAddr = some (.tcp d dp)) ∨
       (h.transportProtocol = 0x22 ∧ h.sourceAddr = some (.udp s sp) ∧
          h.destinationAddr = some (.udp d dp))) ∧
      s.length = 16 ∧ d.length = 16 ∧ sp < 65536 ∧ dp < 65536 ∧
      36 + h.rawTLVs.length ≤ 65535) ∨
   (∃ s d,
      ((h.transportProtocol = 0x31 ∧ h.sourceAddr = some (.unixA "unix" s) ∧
          h.destinationAddr = some (.unixA "unix" d)) ∨
       (h.transportProtocol = 0x32 ∧ h.sourceAddr = some (.unixA "unixgram" s) ∧
          h.destinationAddr = some (.unixA "unixgram" d))) ∧
      s.length ≤ 108 ∧ d.length ≤ 108 ∧ (∀ x ∈ s, x ≠ 0) ∧ (∀ x ∈ d, x ≠ 0) ∧
      216 + h.rawTLVs.length ≤ 65535))

/-- C1 (amended): for every well-formed v2 header — version 2, command
LOCAL or PROXY, supported transport, addresses and ports matching the
transport, Unix paths NUL-free and at most 108 bytes, fixed size plus TLV
length at most 65535, and (the amendment) UNSPEC transport only with
command LOCAL — `formatVersion2` succeeds and `parseVersion2` applied to
its output returns exactly the original header, byte-for-byte in
`rawTLVs` and structurally in every field. -/
theorem v2_format_parse_roundtrip (h : Header) (hwf : WellFormedV2 h) :
    ∃ bs, h.formatVersion2 = .ok bs ∧ parseVersion2 bs = .ok h := by
  obtain ⟨ver, cmd, tp, sa, da, tlvs⟩ := h
  obtain ⟨hv, hcmd, hcases⟩ := hwf
  simp only at hv hcmd hcases
  subst hv
  rcases hcases with ⟨htp, hcl, hsa, hda, htl⟩ |
    ⟨s, sp, d, dp, hor, hs, hd, hsp, hdp, htl⟩ |
    ⟨s, sp, d, dp, hor, hs, hd, hsp, hdp, htl⟩ |
    ⟨s, d, hor, hs, hd, hsz, hdz, htl⟩
  · subst htp hcl hsa hda
    exact roundtripUnspec tlvs htl
  · rcases hor with ⟨htp, hsa, hda⟩ | ⟨htp, hsa, hda⟩ <;>
    · subst htp hsa hda
      exact roundtripIP4 cmd _ sp dp s d tlvs hcmd (by simp) hs hd hsp hdp htl
  · rcases hor with ⟨htp, hsa, hda⟩ | ⟨htp, hsa, hda⟩ <;>
    · subst htp hsa hda
      exact roundtripIP6 cmd _ sp dp s d tlvs hcmd (by simp) hs hd hsp hdp htl
  · rcases hor with ⟨htp, hsa, hda⟩ | ⟨htp, hsa, hda⟩ <;>
    · subst htp hsa hda
      exact roundtripUnix cmd _ s d tlvs hcmd (by simp) hs hd hsz hdz htl

/-- A header meeting every condition C1 lists — version 2, command PROXY,
supported transport (UNSPEC), no addresses, empty TLVs — that does not
survive the round trip: the parser rejects UNSPEC with a non-LOCAL
command. -/
def hdrUnspecProxy : Header :=
  { version := 2, command := PROXY, transportProtocol := UNSPEC }

/-- C1 counterexample: the claim as stated is false — `hdrUnspecProxy`
satisfies all of C1's well-formedness conditions (version 2, command
PROXY, supported transport, no addresses, empty TLVs), yet parsing its
`formatVersion2` output does not return it; the parser fails with
`ErrUnsupportedAddressFamilyAndProtocol`. -/
theorem v2_roundtrip_fails_unspec_proxy :
    hdrUnspecProxy.formatVersion2 =
      .ok (SIGV2 ++ [0x21, 0x00, 0x00, 0x00]) ∧
    parseVersion2 (SIGV2 ++ [0x21, 0x00, 0x00, 0x00]) =
      .error .unsupportedAddressFamilyAndProtocol ∧
    ¬∃ bs, hdrUnspecProxy.formatVersion2 = .ok bs ∧
        parseVersion2 bs = .ok hdrUnspecProxy := by
  refine ⟨by decide, by decide, ?_⟩
  rintro ⟨bs, h1, h2⟩
  have heq : hdrUnspecProxy.formatVersion2 = .ok (SIGV2 ++ [0x21, 0x00, 0x00, 0x00]) := by
    decide
  rw [heq] at h1
  have hbs : bs = SIGV2 ++ [0x21, 0x00, 0x00, 0x00] :=
    ((Except.ok.injEq _ _).mp h1.symm)
  rw [hbs] at h2
  exact absurd h2 (by decide)

/-- The spec's concrete IPv4 example header (scenario 3 with a TLV). -/
def hdrIPv4Example : Header :=
  { version := 2, command := PROXY, transportProtocol := 0x11,
    sourceAddr := some (.tcp [10, 0, 0, 1] 1234),
    destinationAddr := some (.tcp [192, 168, 0, 1] 80),
    rawTLVs := [1, 0, 3, 104, 50, 0] }

/-- C1 witness: the round-trip theorem applied to `hdrIPv4Example`. -/
theorem v2_format_parse_roundtrip_witness :
    ∃ bs, hdrIPv4Example.formatVersion2 = .ok bs ∧
      parseVersion2 bs = .ok hdrIPv4Example :=
  v2_format_parse_roundtrip hdrIPv4Example
    ⟨rfl, Or.inr rfl,
      Or.inr (Or.inl ⟨[10, 0, 0, 1], 1234, [192, 168, 0, 1], 80,
        Or.inl ⟨rfl, rfl, rfl⟩, rfl, rfl, by norm_num, by norm_num, by decide⟩)⟩

/-! ## TLV round trip (C2) and Join failure (C5) -/

theorem joinSize_ok (L : List TLV)
    (hlen : ∀ tlv ∈ L, tlv.value.length ≤ 65535) :
    joinSize L = .ok ((L.map encodeTLV).flatten).length := by
  induction L with
  | nil => rfl
  | cons t rest ih =>
      have h1 : t.value.length ≤ 65535 := hlen t (by simp)
      have h2 := ih (fun x hx => hlen x (by simp [hx]))
      simp only [joinSize, h2]
      rw [if_neg (by omega)]
      simp [encodeTLV, u16be]
      omega

theorem JoinTLVs_ok (L : List TLV)
    (hlen : ∀ tlv ∈ L, tlv.value.length ≤ 65535) :
    JoinTLVs L = .ok ((L.map encodeTLV).flatten) := by
  cases L with
  | nil => rfl
  | cons t rest =>
      rw [JoinTLVs, if_neg (by simp), joinSize_ok _ hlen]
      dsimp only
      by_cases h0 : ((((t :: rest).map encodeTLV).flatten).length = 0)
      · rw [if_pos h0, List.length_eq_zero.mp h0]
      · rw [if_neg h0]

theorem splitLoop_encode (t : TLV) (rest : List Nat)
    (hb : t.typ < 256) (hnoop : t.typ ≠ PP2_TYPE_NOOP)
    (hlen : t.value.length ≤ 65535) :
    splitLoop (encodeTLV t ++ rest) = (splitLoop rest).map (fun l => t :: l) := by
  have hmod : t.typ % 256 = t.typ := Nat.mod_eq_of_lt hb
  have harith : t.value.length / 256 % 256 * 256 + t.value.length % 256
      = t.value.length := by omega
  simp only [encodeTLV, u16be, List.cons_append, List.nil_append]
  rw [splitLoop]
  simp only [harith, hmod]
  rw [if_pos (by simp), List.drop_left' rfl, List.take_left' rfl]
  cases hsr : splitLoop rest with
  | error e => simp [Except.map]
  | ok tlvs => simp [Except.map, if_neg hnoop]

theorem splitLoop_flatten (L : List TLV)
    (hb : ∀ tlv ∈ L, tlv.typ < 256)
    (hnoop : ∀ tlv ∈ L, tlv.typ ≠ PP2_TYPE_NOOP)
    (hlen : ∀ tlv ∈ L, tlv.value.length ≤ 65535) :
    splitLoop ((L.map encodeTLV).flatten) = .ok L := by
  induction L with
  | nil => simp [splitLoop]
  | cons t rest ih =>
      simp only [List.map_cons, List.flatten_cons]
      rw [splitLoop_encode t _ (hb t (by simp)) (hnoop t (by simp)) (hlen t (by simp)),
        ih (fun x hx => hb x (by simp [hx])) (fun x hx => hnoop x (by simp [hx]))
          (fun x hx => hlen x (by simp [hx]))]
      rfl

/-- C2: for every list of TLV entries (with byte-valued types, as the Go
`PP2Type` field guarantees) in which no entry is NOOP and every value has
at most 65535 bytes, `JoinTLVs` succeeds and `SplitTLVs` applied to its
output returns exactly the original list, in order, byte-for-byte. -/
theorem SplitTLVs_JoinTLVs (L : List TLV)
    (hb : ∀ tlv ∈ L, tlv.typ < 256)
    (hnoop : ∀ tlv ∈ L, tlv.typ ≠ PP2_TYPE_NOOP)
    (hlen : ∀ tlv ∈ L, tlv.value.length ≤ 65535) :
    ∃ raw, JoinTLVs L = .ok raw ∧ SplitTLVs raw = .ok L := by
  refine ⟨(L.map encodeTLV).flatten, JoinTLVs_ok L hlen, ?_⟩
  have hsplit := splitLoop_flatten L hb hnoop hlen
  rw [SplitTLVs]
  by_cases h0 : ((L.map encodeTLV).flatten).length = 0
  · rw [if_pos h0]
    rw [List.length_eq_zero.mp h0] at hsplit
    have he : splitLoop [] = Except.ok ([] : List TLV) := by simp [splitLoop]
    rw [he] at hsplit
    exact hsplit
  · rw [if_neg h0]
    exact hsplit

/-- C2 witness: the TLV round trip applied to a concrete two-entry list
(an ALPN entry and an application-reserved entry with empty value). -/
theorem SplitTLVs_JoinTLVs_witness :
    ∃ raw, JoinTLVs [⟨0x01, [104, 50, 0]⟩, ⟨0xE0, []⟩] = .ok raw ∧
      SplitTLVs raw = .ok [⟨0x01, [104, 50, 0]⟩, ⟨0xE0, []⟩] :=
  SplitTLVs_JoinTLVs [⟨0x01, [104, 50, 0]⟩, ⟨0xE0, []⟩]
    (by decide) (by decide) (by decide)

theorem joinSize_oversize (L : List TLV)
    (h : ∃ tlv ∈ L, tlv.value.length > 65535) :
    ∃ t n, joinSize L = .error (.cannotFormatTLV t n) ∧ 65535 < n := by
  induction L with
  | nil => rcases h with ⟨tlv, hmem, _⟩; cases hmem
  | cons a rest ih =>
      by_cases ha : a.value.length > 65535
      · exact ⟨a.typ, a.value.length, by simp [joinSize, if_pos ha], ha⟩
      · rcases h with ⟨tlv, hmem, hgt⟩
        have hmem' : tlv ∈ rest := by
          rcases List.mem_cons.mp hmem with rfl | hm
          · omega
          · exact hm
        obtain ⟨t, n, hjs, hn⟩ := ih ⟨tlv, hmem', hgt⟩
        refine ⟨t, n, ?_, hn⟩
        simp [joinSize, if_neg ha, hjs]

/-- C5 (amended): for every TLV list with at least one value longer than
65535 bytes, `JoinTLVs` fails — but with the freshly formatted
"cannot format TLV" error carrying the offending type and length, not
with the distinguished `ErrMalformedTLV` value. -/
theorem JoinTLVs_oversize_fails (L : List TLV)
    (h : ∃ tlv ∈ L, tlv.value.length > 65535) :
    ∃ t n, JoinTLVs L = .error (.cannotFormatTLV t n) ∧ 65535 < n := by
  obtain ⟨t, n, hjs, hn⟩ := joinSize_oversize L h
  have hne : L ≠ [] := by rintro rfl; rcases h with ⟨tlv, hmem, _⟩; cases hmem
  refine ⟨t, n, ?_, hn⟩
  rw [JoinTLVs, if_neg (by simpa using hne), hjs]

/-- C5 witness: `JoinTLVs_oversize_fails` at a concrete singleton list
holding a 70000-byte value. -/
theorem JoinTLVs_oversize_fails_witness :
    ∃ t n, JoinTLVs [⟨0x02, List.replicate 70000 7⟩] =
        .error (.cannotFormatTLV t n) ∧ 65535 < n :=
  JoinTLVs_oversize_fails [⟨0x02, List.replicate 70000 7⟩]
    ⟨⟨0x02, List.replicate 70000 7⟩, List.mem_singleton.mpr rfl,
      by simp only [List.length_replicate]; norm_num⟩

/-- A TLV list with one oversized (65536-byte) value. -/
def oversizedTLVList : List TLV := [⟨0x01, List.replicate 65536 0⟩]

/-- C5 counterexample: the claim as stated is false — on a list containing
an oversized value, `JoinTLVs` does fail, but its error is the formatted
"cannot format TLV" error, not the distinguished `ErrMalformedTLV`. -/
theorem JoinTLVs_oversize_not_ErrMalformedTLV :
    (∃ tlv ∈ oversizedTLVList, tlv.value.length > 65535) ∧
    JoinTLVs oversizedTLVList = .error (.cannotFormatTLV 0x01 65536) ∧
    JoinTLVs oversizedTLVList ≠ .error .malformedTLV := by
  have key : ∀ R : List Nat, R.length = 65536 →
      JoinTLVs [⟨0x01, R⟩] = .error (.cannotFormatTLV 0x01 65536) := by
    intro R hR
    rw [JoinTLVs, if_neg (by simp), joinSize]
    dsimp only
    rw [if_pos (by rw [hR]; norm_num), hR]
  have h2 : JoinTLVs oversizedTLVList = .error (.cannotFormatTLV 0x01 65536) :=
    key _ (List.length_replicate _ _)
  refine ⟨⟨⟨0x01, List.replicate 65536 0⟩, List.mem_singleton.mpr rfl,
    by simp only [List.length_replicate]; norm_num⟩, h2, ?_⟩
  rw [h2]
  simp

/-! ## C3: InvalidLength on short declared length or short byte source -/

/-- C3: `parseVersion2` fails with `ErrInvalidLength` whenever the
declared 16-bit payload length is below the family minimum (12 for IPv4,
36 for IPv6, 216 for Unix — the 0 minimum for Unspec cannot be violated),
and also whenever the byte source holds fewer bytes than the declared
length (the `Peek` check). -/
theorem parseVersion2_invalidLength (cmd tp L : Nat) (rest : List Nat)
    (hcmd : cmd = LOCAL ∨ cmd = PROXY)
    (hns : ¬(tp = UNSPEC ∧ ¬cmd = LOCAL))
    (hL : L < 65536)
    (hbad : (isIPv4 tp ∧ L < 12) ∨ (isIPv6 tp ∧ L < 36) ∨
      (isUnix tp ∧ L < 216) ∨ rest.length < L) :
    parseVersion2 (SIGV2 ++ cmd :: tp :: (u16be L ++ rest)) =
      .error .invalidLength := by
  rw [parseVersion2_sig,
    parseAfterSig_u16be cmd tp L rest hL (supportedCommand_of cmd hcmd) hns,
    parseWithLength]
  rcases hbad with ⟨h4, hlt⟩ | ⟨h6, hlt⟩ | ⟨hu, hlt⟩ | hshort
  · simp only [isIPv4, decide_eq_true_eq] at h4
    rw [if_neg (by simp [validateLength, isIPv4, isIPv6, isUnix, isUnspec, h4]; omega)]
  · simp only [isIPv6, decide_eq_true_eq] at h6
    rw [if_neg (by simp [validateLength, isIPv4, isIPv6, isUnix, isUnspec, h6]; omega)]
  · simp only [isUnix, decide_eq_true_eq] at hu
    rw [if_neg (by simp [validateLength, isIPv4, isIPv6, isUnix, isUnspec, hu]; omega)]
  · by_cases hv : validateLength tp L
    · rw [if_pos hv, if_neg (by omega : ¬L = 0), if_neg (by omega : ¬L ≤ rest.length)]
    · rw [if_neg hv]

/-- C3 witness: both failure modes at concrete inputs — an IPv4 header
declaring length 11, and an IPv4 header declaring length 12 over an
11-byte source. -/
theorem parseVersion2_invalidLength_witness :
    parseVersion2 (SIGV2 ++ PROXY :: 0x11 :: (u16be 11 ++ List.replicate 11 0)) =
      .error .invalidLength ∧
    parseVersion2 (SIGV2 ++ PROXY :: 0x11 :: (u16be 12 ++ List.replicate 11 0)) =
      .error .invalidLength :=
  ⟨parseVersion2_invalidLength PROXY 0x11 11 (List.replicate 11 0)
      (Or.inr rfl) (by simp [UNSPEC]) (by norm_num)
      (Or.inl ⟨by decide, by norm_num⟩),
   parseVersion2_invalidLength PROXY 0x11 12 (List.replicate 11 0)
      (Or.inr rfl) (by simp [UNSPEC]) (by norm_num)
      (Or.inr (Or.inr (Or.inr (by simp))))⟩

/-! ## C4: the UNSPEC overflow guard in formatVersion2 is dead code -/

/-- C4 (the bug, evaluated): for an UNSPEC header with 65536 TLV bytes the
fixed size (0) plus the TLV length exceeds 65535, yet `formatVersion2`
does not fail with `errUint16Overflow`: the Go guard compares the already
truncated `uint16` length against `math.MaxUint16`, so it can never fire,
and the emitted header declares length 0 (65536 mod 65536) while carrying
all 65536 TLV bytes. -/
theorem formatVersion2_unspec_overflow_missed :
    Header.formatVersion2
      { version := 2, command := LOCAL, transportProtocol := UNSPEC,
        rawTLVs := List.replicate 65536 1 } =
      .ok (SIGV2 ++ LOCAL :: UNSPEC :: (u16be 0 ++ List.replicate 65536 1)) := by
  have key : ∀ R : List Nat, R.length = 65536 →
      Header.formatVersion2
        { version := 2, command := LOCAL, transportProtocol := UNSPEC,
          rawTLVs := R } =
        .ok (SIGV2 ++ LOCAL :: UNSPEC :: (u16be 0 ++ R)) := by
    intro R hR
    simp only [Header.formatVersion2]
    rw [if_neg (by decide), if_neg (by decide), if_neg (by decide), hR]
    norm_num [LOCAL, UNSPEC, toByteCmd, u16be]
  exact key _ (List.length_replicate _ _)

/-! ## Interception wrapper (`Conn`, v2.go) and listener adapter

The wrapper state and its one-shot header read.  Real time, `net.Conn`
deadlines and the `sync.Once` latch are modelled explicitly: time is an
`Int` parameter (`now` stands for `time.Now()`), deadlines are `Int`
values on the connection state, and the latch is the `onceDone` flag —
operations are applied sequentially, which is what the latch enforces.
The header-reading `Read` demultiplexer itself lives in header.go (absent
from the snapshot); what it returns on the wrapped stream is modelled by
the `source` field: a parsed header, `ErrNoProxyProtocol`, a timeout
(`net.Error` with `Timeout() = true`), or another parse error. -/

/-- Modelled from the spec: the `Policy` enumeration (policy.go, absent
from the snapshot). -/
inductive Policy where
  | USE
  | REQUIRE
  | REJECT
  | IGNORE
  | SKIP
deriving Repr, DecidableEq

/-- What the header-read entry `Read(p.bufReader)` yields on the wrapped
stream. -/
inductive ReadResult where
  | ok (h : Header)
  | noProxy
  | timeoutErr
  | parseFail (e : V2Error)
deriving Repr, DecidableEq

/-- The errors surfaced by the wrapper: `ErrNoProxyProtocol`,
`ErrSuperfluousProxyHeader`, a raw network timeout error, a parse error,
a validation error from the configured `Validator`, and
`ErrInvalidUpstream` from a policy function. -/
inductive HErr where
  | noProxyProtocol
  | superfluousProxyHeader
  | timeoutNet
  | parseErr (e : V2Error)
  | validationErr
  | invalidUpstream
deriving Repr, DecidableEq

/-- The wrapper state (`Conn` in v2.go): policy, header-read timeout,
optional validator, the stream's header-read outcome, the underlying
socket's addresses, the deadline bookkeeping (`readDeadline` stores the
caller's desired deadline, `connDeadline` is the deadline currently set on
the underlying connection), the one-shot latch, and the latched results.
`ioCount` counts header-read I/O attempts. -/
structure Conn where
  policy : Policy
  readHeaderTimeout : Int
  validate : Option (Header → Option HErr)
  source : ReadResult
  connLocalAddr : Addr
  connRemoteAddr : Addr
  userDeadline : Option Int
  connDeadline : Int
  onceDone : Bool
  readErr : Option HErr
  header : Option Header
  ioCount : Nat

/-- `Conn.readHeader` (v2.go:905-961): with a positive timeout, save the
stored read deadline (zero `time.Time` when never stored) and install the
transient deadline `now + timeout`; perform the header read; with a
positive timeout, restore the original deadline and re-classify a network
timeout as `ErrNoProxyProtocol`.  `ErrNoProxyProtocol` is an error only
under REQUIRE.  A successfully read header is rejected under REJECT
(`ErrSuperfluousProxyHeader`), validated and retained under USE/REQUIRE,
and dropped otherwise. -/
def Conn.readHeader (c : Conn) (now : Int) : Option HErr × Conn :=
  let origDeadline : Int := c.userDeadline.getD 0
  let c1 := if c.readHeaderTimeout > 0
    then { c with connDeadline := now + c.readHeaderTimeout } else c
  let c2 := { c1 with ioCount := c1.ioCount + 1 }
  let res := c.source
  let c3 := if c.readHeaderTimeout > 0
    then { c2 with connDeadline := origDeadline } else c2
  let res2 := if c.readHeaderTimeout > 0 ∧ res = .timeoutErr
    then ReadResult.noProxy else res
  match res2 with
  | .noProxy =>
      if c.policy = .REQUIRE then (some .noProxyProtocol, c3) else (none, c3)
  | .timeoutErr => (some .timeoutNet, c3)
  | .parseFail e => (some (.parseErr e), c3)
  | .ok h =>
      match c.policy with
      | .REJECT => (some .superfluousProxyHeader, c3)
      | .USE | .REQUIRE =>
          (match c.validate with
          | some v =>
              match v h with
              | some ve => (some ve, c3)
              | none => (none, { c3 with header := some h })
          | none => (none, { c3 with header := some h }))
      | _ => (none, c3)

/-- The `sync.Once` latch around `readHeader`: the attempt runs only once
and stores its error in `readErr`. -/
def Conn.once (c : Conn) (now : Int) : Conn :=
  if c.onceDone then c
  else
    let r := c.readHeader now
    { r.2 with onceDone := true, readErr := r.1 }

/-- `Conn.Read` (v2.go:757-778): run the one-shot header read, then fail
with the latched error or proceed to payload reading (abstracted — the
claims only concern the error). -/
def Conn.Read (c : Conn) (now : Int) : Option HErr × Conn :=
  let c' := c.once now
  (c'.readErr, c')

/-- `Conn.ProxyHeader` (v2.go:815-818): run the one-shot header read and
return the latched header (nil when reading failed). -/
def Conn.ProxyHeader (c : Conn) (now : Int) : Option Header × Conn :=
  let c' := c.once now
  (c'.header, c')

/-- `Conn.LocalAddr` (v2.go:826-833): the header's destination address,
except when there is no header, the command is LOCAL, or the header read
errored — then the underlying socket's local address. -/
def Conn.LocalAddr (c : Conn) (now : Int) : Option Addr × Conn :=
  let c' := c.once now
  match c'.header with
  | none => (some c'.connLocalAddr, c')
  | some h =>
      if isLocalCmd h.command ∨ c'.readErr.isSome then (some c'.connLocalAddr, c')
      else (h.destinationAddr, c')

/-- `Conn.RemoteAddr` (v2.go:841-848): the header's source address, with
the same fallbacks as `LocalAddr`. -/
def Conn.RemoteAddr (c : Conn) (now : Int) : Option Addr × Conn :=
  let c' := c.once now
  match c'.header with
  | none => (some c'.connRemoteAddr, c')
  | some h =>
      if isLocalCmd h.command ∨ c'.readErr.isSome then (some c'.connRemoteAddr, c')
      else (h.sourceAddr, c')

/-- The four wrapper operations that trigger the one-shot header read. -/
inductive ConnOp where
  | read
  | localAddr
  | remoteAddr
  | proxyHeader
deriving Repr, DecidableEq

/-- The state after one wrapper operation (performed at time `now`). -/
def Conn.applyOp (c : Conn) (op : ConnOp) (now : Int) : Conn :=
  match op with
  | .read => (c.Read now).2
  | .localAddr => (c.LocalAddr now).2
  | .remoteAddr => (c.RemoteAddr now).2
  | .proxyHeader => (c.ProxyHeader now).2

/-- The state after a sequence of wrapper operations. -/
def Conn.applyOps (c : Conn) : List (ConnOp × Int) → Conn
  | [] => c
  | (op, t) :: rest => (c.applyOp op t).applyOps rest

theorem readHeader_fields (c : Conn) (t : Int) :
    ((c.readHeader t).2).connLocalAddr = c.connLocalAddr ∧
    ((c.readHeader t).2).connRemoteAddr = c.connRemoteAddr ∧
    ((c.readHeader t).2).onceDone = c.onceDone ∧
    ((c.readHeader t).2).readErr = c.readErr ∧
    ((c.readHeader t).2).ioCount = c.ioCount + 1 := by
  obtain ⟨pol, rht, val, src, cla, cra, ud, cd, od, re, hd, ic⟩ := c
  unfold Conn.readHeader
  by_cases hto : rht > 0 <;>
    cases src <;>
      simp [hto] <;>
        cases pol <;>
          simp <;>
            cases val <;>
              simp <;>
                split <;> simp

theorem readHeader_err_header (c : Conn) (t : Int) (e : HErr)
    (he : (c.readHeader t).1 = some e) :
    ((c.readHeader t).2).header = c.header := by
  obtain ⟨pol, rht, val, src, cla, cra, ud, cd, od, re, hd, ic⟩ := c
  unfold Conn.readHeader at he ⊢
  by_cases hto : rht > 0 <;>
    cases src <;>
      simp [hto] at he ⊢ <;>
        cases pol <;>
          simp at he ⊢ <;>
            cases val <;>
              simp at he ⊢ <;>
                split at he <;> simp_all

theorem once_onceDone (c : Conn) (t : Int) : (c.once t).onceDone = true := by
  unfold Conn.once
  by_cases h : c.onceDone <;> simp [h]

theorem once_of_done (c : Conn) (t : Int) (h : c.onceDone = true) : c.once t = c := by
  unfold Conn.once
  simp [h]

theorem once_ioCount (c : Conn) (t : Int) : (c.once t).ioCount ≤ c.ioCount + 1 := by
  unfold Conn.once
  by_cases h : c.onceDone
  · simp [h]
  · simp [h, (readHeader_fields c t).2.2.2.2]

theorem once_connAddrs (c : Conn) (t : Int) :
    (c.once t).connLocalAddr = c.connLocalAddr ∧
    (c.once t).connRemoteAddr = c.connRemoteAddr := by
  unfold Conn.once
  by_cases h : c.onceDone
  · simp [h]
  · simp [h, (readHeader_fields c t).1, (readHeader_fields c t).2.1]

theorem applyOp_eq_once (c : Conn) (op : ConnOp) (t : Int) :
    c.applyOp op t = c.once t := by
  cases op
  · rfl
  · show (c.LocalAddr t).2 = c.once t
    unfold Conn.LocalAddr
    dsimp only
    split
    · rfl
    · split <;> rfl
  · show (c.RemoteAddr t).2 = c.once t
    unfold Conn.RemoteAddr
    dsimp only
    split
    · rfl
    · split <;> rfl
  · rfl

theorem applyOps_of_done (c : Conn) (ops : List (ConnOp × Int))
    (h : c.onceDone = true) : c.applyOps ops = c := by
  induction ops generalizing c with
  | nil => rfl
  | cons p rest ih =>
      obtain ⟨op, t⟩ := p
      show (c.applyOp op t).applyOps rest = c
      rw [applyOp_eq_once, once_of_done c t h, ih c h]

theorem applyOps_ioCount (c : Conn) (ops : List (ConnOp × Int)) :
    (c.applyOps ops).ioCount ≤ c.ioCount + 1 := by
  cases ops with
  | nil => exact Nat.le_succ _
  | cons p rest =>
      obtain ⟨op, t⟩ := p
      show ((c.applyOp op t).applyOps rest).ioCount ≤ c.ioCount + 1
      rw [applyOp_eq_once, applyOps_of_done _ _ (once_onceDone c t)]
      exact once_ioCount c t

/-- A fresh wrapper over given addresses and stream outcome: the state
`NewConn` builds (with the policy, validator and timeout options). -/
def mkConn (pol : Policy) (src : ReadResult) : Conn :=
  { policy := pol, readHeaderTimeout := 0, validate := none, source := src,
    connLocalAddr := .tcp [127, 0, 0, 1] 443,
    connRemoteAddr := .tcp [10, 0, 0, 9] 5555,
    userDeadline := none, connDeadline := 0, onceDone := false,
    readErr := none, header := none, ioCount := 0 }

/-- C6: the header-read step obeys the policy table: REQUIRE over a
stream with no PROXY header fails with `ErrNoProxyProtocol`; REJECT over
a stream carrying a parseable header fails with
`ErrSuperfluousProxyHeader`; USE over a stream with no header succeeds
with no error and the wrapper reports the underlying socket's
addresses. -/
theorem readHeader_policy_table (c : Conn) (now : Int) (hh : c.header = none) :
    (c.policy = .REQUIRE → c.source = .noProxy →
      (c.readHeader now).1 = some .noProxyProtocol) ∧
    (c.policy = .REJECT → ∀ h, c.source = .ok h →
      (c.readHeader now).1 = some .superfluousProxyHeader) ∧
    (c.policy = .USE → c.source = .noProxy →
      (c.readHeader now).1 = none ∧
      (c.LocalAddr now).1 = some c.connLocalAddr ∧
      (c.RemoteAddr now).1 = some c.connRemoteAddr) := by
  obtain ⟨pol, rht, val, src, cla, cra, ud, cd, od, re, hd, ic⟩ := c
  simp only at hh
  subst hh
  refine ⟨?_, ?_, ?_⟩
  · rintro rfl rfl
    unfold Conn.readHeader
    by_cases hto : rht > 0 <;> simp [hto]
  · rintro rfl h rfl
    unfold Conn.readHeader
    by_cases hto : rht > 0 <;> simp [hto]
  · rintro rfl rfl
    refine ⟨?_, ?_, ?_⟩
    · unfold Conn.readHeader
      by_cases hto : rht > 0 <;> simp [hto]
    · show (Conn.LocalAddr _ now).1 = _
      unfold Conn.LocalAddr Conn.once Conn.readHeader
      by_cases hod : od <;> by_cases hto : rht > 0 <;> simp [hod, hto]
    · show (Conn.RemoteAddr _ now).1 = _
      unfold Conn.RemoteAddr Conn.once Conn.readHeader
      by_cases hod : od <;> by_cases hto : rht > 0 <;> simp [hod, hto]

/-- C6 witness: the three policy-table rows at concrete wrappers. -/
theorem readHeader_policy_table_witness :
    ((mkConn .REQUIRE .noProxy).readHeader 0).1 = some .noProxyProtocol ∧
    ((mkConn .REJECT (.ok hdrIPv4Example)).readHeader 0).1 =
      some .superfluousProxyHeader ∧
    ((mkConn .USE .noProxy).readHeader 0).1 = none ∧
    ((mkConn .USE .noProxy).LocalAddr 0).1 =
      some (mkConn .USE .noProxy).connLocalAddr ∧
    ((mkConn .USE .noProxy).RemoteAddr 0).1 =
      some (mkConn .USE .noProxy).connRemoteAddr :=
  ⟨(readHeader_policy_table (mkConn .REQUIRE .noProxy) 0 rfl).1 rfl rfl,
   (readHeader_policy_table (mkConn .REJECT (.ok hdrIPv4Example)) 0 rfl).2.1 rfl
     hdrIPv4Example rfl,
   ((readHeader_policy_table (mkConn .USE .noProxy) 0 rfl).2.2 rfl rfl).1,
   ((readHeader_policy_table (mkConn .USE .noProxy) 0 rfl).2.2 rfl rfl).2.1,
   ((readHeader_policy_table (mkConn .USE .noProxy) 0 rfl).2.2 rfl rfl).2.2⟩

/-- C7: with a positive header-read timeout, a deadline expiry during the
header read (`net.Error` with `Timeout()`) is re-classified as
`ErrNoProxyProtocol` — so every policy except REQUIRE (USE in
particular) sees no error — and on every exit path of the attempt the
read deadline on the underlying connection ends up restored to the
caller's stored deadline (the zero time when none was stored). -/
theorem readHeader_timeout_translated (c : Conn) (now : Int)
    (hto : 0 < c.readHeaderTimeout) :
    (c.source = .timeoutErr →
      (c.readHeader now).1 =
        (if c.policy = .REQUIRE then some .noProxyProtocol else none)) ∧
    ((c.readHeader now).2).connDeadline = c.userDeadline.getD 0 := by
  obtain ⟨pol, rht, val, src, cla, cra, ud, cd, od, re, hd, ic⟩ := c
  simp only at hto ⊢
  constructor
  · rintro rfl
    unfold Conn.readHeader
    by_cases hpol : pol = .REQUIRE <;> simp [hto, hpol]
  · unfold Conn.readHeader
    cases src <;>
      simp [hto] <;>
        cases pol <;>
          simp <;>
            cases val <;>
              simp <;>
                split <;> simp

/-- A wrapper whose peer stays silent: positive timeout, stored caller
deadline 42, transient deadline in place of 99 at the time of the call. -/
def connTimeoutUSE : Conn :=
  { mkConn .USE .timeoutErr with
      readHeaderTimeout := 5, userDeadline := some 42, connDeadline := 99 }

/-- C7 witness: timeout translation and deadline restoration at a
concrete USE wrapper. -/
theorem readHeader_timeout_translated_witness :
    (connTimeoutUSE.readHeader 100).1 =
      (if connTimeoutUSE.policy = .REQUIRE then some .noProxyProtocol else none) ∧
    ((connTimeoutUSE.readHeader 100).2).connDeadline =
      connTimeoutUSE.userDeadline.getD 0 :=
  ⟨(readHeader_timeout_translated connTimeoutUSE 100 (by decide)).1 rfl,
   (readHeader_timeout_translated connTimeoutUSE 100 (by decide)).2⟩

/-- C8: a second `ProxyHeader` call returns the same header and leaves
the wrapper state untouched, and any sequence of `Read` / `LocalAddr` /
`RemoteAddr` / `ProxyHeader` calls, in any order and at any times,
performs the header-read I/O at most once (`ioCount` grows by at most
one over the wrapper's lifetime). -/
theorem conn_one_shot_latch (c : Conn) (t1 t2 : Int) (ops : List (ConnOp × Int)) :
    ((c.ProxyHeader t1).2.ProxyHeader t2).1 = (c.ProxyHeader t1).1 ∧
    ((c.ProxyHeader t1).2.ProxyHeader t2).2 = (c.ProxyHeader t1).2 ∧
    (c.applyOps ops).ioCount ≤ c.ioCount + 1 := by
  have h2 : (c.once t1).once t2 = c.once t1 :=
    once_of_done _ _ (once_onceDone c t1)
  refine ⟨?_, ?_, applyOps_ioCount c ops⟩
  · show ((c.once t1).once t2).header = (c.once t1).header
    rw [h2]
  · show (c.once t1).once t2 = c.once t1
    exact h2

/-- C9: whenever the one-shot header read ends in any error, `LocalAddr`
and `RemoteAddr` return the underlying socket's addresses — never
header-derived ones — and `ProxyHeader` returns nil. -/
theorem conn_error_fallback (c : Conn) (now : Int) (e : HErr)
    (hh : c.header = none) (herr : (c.once now).readErr = some e) :
    (c.LocalAddr now).1 = some c.connLocalAddr ∧
    (c.RemoteAddr now).1 = some c.connRemoteAddr ∧
    (c.ProxyHeader now).1 = none := by
  have hhdr : (c.once now).header = none := by
    unfold Conn.once at herr ⊢
    by_cases hod : c.onceDone
    · simp only [hod, if_true, if_pos]
      exact hh
    · simp only [hod, Bool.false_eq_true, if_false] at herr ⊢
      rw [readHeader_err_header c now e herr]
      exact hh
  refine ⟨?_, ?_, ?_⟩
  · show (Conn.LocalAddr c now).1 = _
    unfold Conn.LocalAddr
    dsimp only
    rw [hhdr]
    simp [(once_connAddrs c now).1]
  · show (Conn.RemoteAddr c now).1 = _
    unfold Conn.RemoteAddr
    dsimp only
    rw [hhdr]
    simp [(once_connAddrs c now).2]
  · show (Conn.ProxyHeader c now).1 = _
    unfold Conn.ProxyHeader
    dsimp only
    exact hhdr

/-- C9 witness: a wrapper whose header read fails with a parse error
(`ErrInvalidLength`) falls back to the socket addresses and a nil
header. -/
theorem conn_error_fallback_witness :
    ((mkConn .USE (.parseFail .invalidLength)).LocalAddr 0).1 =
      some (mkConn .USE (.parseFail .invalidLength)).connLocalAddr ∧
    ((mkConn .USE (.parseFail .invalidLength)).RemoteAddr 0).1 =
      some (mkConn .USE (.parseFail .invalidLength)).connRemoteAddr ∧
    ((mkConn .USE (.parseFail .invalidLength)).ProxyHeader 0).1 = none :=
  conn_error_fallback (mkConn .USE (.parseFail .invalidLength)) 0
    (.parseErr .invalidLength) rfl (by decide)

/-! ## Listener adapter (`Listener.Accept`, v2.go:648-713) -/

/-- An accepted raw connection: its two socket addresses and the
header-read outcome its byte stream would produce. -/
structure RawConn where
  remoteAddr : Addr
  localAddr : Addr
  source : ReadResult

/-- The listener configuration (`Listener` in v2.go): the deprecated
`Policy` function, the `ConnPolicy` function, the header validator and
the header-read timeout. -/
structure Listener where
  policyF : Option (Addr → Policy × Option HErr) := none
  connPolicyF : Option (Addr × Addr → Policy × Option HErr) := none
  validateHeader : Option (Header → Option HErr) := none
  readHeaderTimeout : Int := 0

/-- `DefaultReadHeaderTimeout` — 10 seconds (in nanoseconds, as a Go
`time.Duration`). -/
def DefaultReadHeaderTimeout : Int := 10 * 1000000000

/-- `NewConn` (v2.go:734-752): a fresh wrapper over the raw connection
with the given policy and validator. -/
def NewConn (rc : RawConn) (pol : Policy)
    (validate : Option (Header → Option HErr)) : Conn :=
  { policy := pol, readHeaderTimeout := 0, validate := validate,
    source := rc.source, connLocalAddr := rc.localAddr,
    connRemoteAddr := rc.remoteAddr,
    userDeadline := none, connDeadline := 0, onceDone := false,
    readErr := none, header := none, ioCount := 0 }

/-- The outcome of one `Accept` iteration for one raw connection. -/
inductive AcceptResult where
  | raw (rc : RawConn)
  | wrapped (c : Conn)
  | dropAndContinue
  | fail (e : HErr)
  | panicBoth

/-- One iteration of `Listener.Accept` for an accepted connection
(socket tuning hooks are out of scope): panic when both `Policy` and
`ConnPolicy` are set; run the configured policy function (default USE
with none); on `ErrInvalidUpstream` close and keep listening, on other
policy errors close and surface; return the raw connection on SKIP;
otherwise wrap with the resolved policy, the listener's validator, and
the listener's timeout (the default when it is zero). -/
def Listener.acceptConn (l : Listener) (rc : RawConn) : AcceptResult :=
  if l.policyF.isSome ∧ l.connPolicyF.isSome then .panicBoth
  else
    let decision : Policy × Option HErr :=
      match l.policyF, l.connPolicyF with
      | some f, _ => f rc.remoteAddr
      | none, some g => g (rc.remoteAddr, rc.localAddr)
      | none, none => (.USE, none)
    match decision.2 with
    | some e => if e = .invalidUpstream then .dropAndContinue else .fail e
    | none =>
        if decision.1 = .SKIP ∧ (l.policyF.isSome ∨ l.connPolicyF.isSome) then
          .raw rc
        else
          let rht := if l.readHeaderTimeout = 0 then DefaultReadHeaderTimeout
            else l.readHeaderTimeout
          .wrapped { NewConn rc decision.1 l.validateHeader with
            readHeaderTimeout := rht }

/-- C10: a listener configured with neither a `Policy` nor a
`ConnPolicy` function (and no validator) wraps every accepted connection
with policy USE: a stream carrying a parseable header gets it parsed and
populated (`ProxyHeader` returns it), and a stream carrying no header is
not an error (`Read` reports none). -/
theorem accept_default_policy_USE (l : Listener) (rc : RawConn) (now : Int)
    (hp : l.policyF = none) (hcp : l.connPolicyF = none)
    (hv : l.validateHeader = none) :
    ∃ c, l.acceptConn rc = .wrapped c ∧ c.policy = .USE ∧
      (∀ h, rc.source = .ok h → (c.ProxyHeader now).1 = some h) ∧
      (rc.source = .noProxy → (c.Read now).1 = none) := by
  obtain ⟨pf, cpf, vh, rht0⟩ := l
  simp only at hp hcp hv
  subst hp hcp hv
  unfold Listener.acceptConn
  simp only [Option.isSome_none, Bool.false_eq_true, false_and, if_false]
  refine ⟨{ NewConn rc .USE none with
      readHeaderTimeout := if rht0 = 0 then DefaultReadHeaderTimeout else rht0 },
    rfl, rfl, ?_, ?_⟩
  · rintro h hsrc
    show (Conn.once _ now).header = some h
    unfold Conn.once Conn.readHeader NewConn
    simp only [hsrc]
    by_cases hto : (if rht0 = 0 then DefaultReadHeaderTimeout else rht0) > 0 <;>
      simp [hto]
  · rintro hsrc
    show (Conn.once _ now).readErr = none
    unfold Conn.once Conn.readHeader NewConn
    simp only [hsrc]
    by_cases hto : (if rht0 = 0 then DefaultReadHeaderTimeout else rht0) > 0 <;>
      simp [hto]

/-- C10 witness: a default-configured listener accepting a connection
whose stream carries the IPv4 example header, and one whose stream
carries none. -/
theorem accept_default_policy_USE_witness :
    (∃ c, Listener.acceptConn {} ⟨.tcp [9, 9, 9, 9] 1, .tcp [8, 8, 8, 8] 2,
        .ok hdrIPv4Example⟩ = .wrapped c ∧ c.policy = .USE ∧
      (∀ h, ReadResult.ok hdrIPv4Example = .ok h → (c.ProxyHeader 0).1 = some h) ∧
      (ReadResult.ok hdrIPv4Example = .noProxy → (c.Read 0).1 = none)) ∧
    (∃ c, Listener.acceptConn {} ⟨.tcp [9, 9, 9, 9] 1, .tcp [8, 8, 8, 8] 2,
        .noProxy⟩ = .wrapped c ∧ c.policy = .USE ∧
      (∀ h, ReadResult.noProxy = .ok h → (c.ProxyHeader 0).1 = some h) ∧
      (ReadResult.noProxy = .noProxy → (c.Read 0).1 = none)) :=
  ⟨accept_default_policy_USE {} ⟨.tcp [9, 9, 9, 9] 1, .tcp [8, 8, 8, 8] 2,
      .ok hdrIPv4Example⟩ 0 rfl rfl rfl,
   accept_default_policy_USE {} ⟨.tcp [9, 9, 9, 9] 1, .tcp [8, 8, 8, 8] 2,
      .noProxy⟩ 0 rfl rfl rfl⟩

end Proxyproto
